import Mathlib

/-!
Verification development for the vacancy-normalization tool
(`src/services.py`, `src/vacancy.py`, `src/fileworker.py`).

The Python values flowing through the program are modelled by `PyVal`
(a JSON-like value type extended with Python floats).  Machine floats are
modelled as exact rationals plus the special values `inf`, `-inf`, `nan`;
binary rounding of doubles is not modelled (the numbers the program
handles are small integers).  Python dictionaries are modelled as
association lists with unique keys and first-match lookup.  Fallible
Python code is modelled in `Except PyErr`.
-/

/-- The special shapes a Python float can take.  A finite float is kept as
an exact rational. -/
inductive PyFloat where
  | finite (q : ℚ)
  | inf
  | negInf
  | nan
  deriving DecidableEq

/-- A Python value as the program sees it after `json.load` (plus floats
and booleans). -/
inductive PyVal where
  | vnone
  | vbool (b : Bool)
  | vint (n : Int)
  | vfloat (f : PyFloat)
  | vstr (s : String)
  | vlist (xs : List PyVal)
  | vdict (ps : List (String × PyVal))

/-- A Python dict: association list with unique keys. -/
abbrev PyDict := List (String × PyVal)

/-- First-match lookup, modelling `dict.__getitem__` on a dict with unique
keys. -/
def dget : PyDict → String → Option PyVal
  | [], _ => none
  | (k, v) :: rest, key => if k = key then some v else dget rest key

/-- `d.get(key, dflt)`. -/
def dgetD (d : PyDict) (key : String) (dflt : PyVal) : PyVal :=
  (dget d key).getD dflt

/-- Python truthiness (`bool(v)`). -/
def PyVal.truthy : PyVal → Bool
  | .vnone => false
  | .vbool b => b
  | .vint n => n != 0
  | .vfloat (.finite q) => q != 0
  | .vfloat _ => true
  | .vstr s => s != ""
  | .vlist xs => !xs.isEmpty
  | .vdict ps => !ps.isEmpty

/-- `a or b` on Python values. -/
def pyOr (a b : PyVal) : PyVal := if a.truthy then a else b

/-- `x and isinstance(x, dict)`: the dict, provided it is truthy. -/
def truthyDict? : PyVal → Option PyDict
  | .vdict dd => if (PyVal.vdict dd).truthy then some dd else none
  | _ => none

/-- Python whitespace stripped by `str.strip` (ASCII part; the exotic
Unicode space characters never occur in this program's data). -/
def isPySpace (c : Char) : Bool :=
  c = ' ' || c = '\t' || c = '\n' || c = '\r' || c = '\x0b' || c = '\x0c'

/-- `str.strip()`. -/
def pyStrip (s : String) : String :=
  ⟨((s.data.dropWhile isPySpace).reverse.dropWhile isPySpace).reverse⟩

/-- One character of `str.lower()`: ASCII `A`-`Z` and Cyrillic `А`-`Я`/`Ё`
(the alphabets appearing in this program); other characters are kept. -/
def pyLowerChar (c : Char) : Char :=
  if 65 ≤ c.toNat && c.toNat ≤ 90 then Char.ofNat (c.toNat + 32)
  else if 1040 ≤ c.toNat && c.toNat ≤ 1071 then Char.ofNat (c.toNat + 32)
  else if c.toNat = 1025 then Char.ofNat 1105
  else c

/-- `str.lower()`. -/
def pyLower (s : String) : String := ⟨s.data.map pyLowerChar⟩

/-- The decimal digit characters. -/
def digitChar : Nat → Char
  | 0 => '0' | 1 => '1' | 2 => '2' | 3 => '3' | 4 => '4'
  | 5 => '5' | 6 => '6' | 7 => '7' | 8 => '8' | _ => '9'

/-- Decimal digits of a natural number, most significant first.  The fuel
argument only bounds the recursion depth (a number has fewer digits than
its own value plus one). -/
def natDigitsAux : Nat → Nat → List Char
  | 0, _ => []
  | fuel + 1, n =>
    if n < 10 then [digitChar n]
    else natDigitsAux fuel (n / 10) ++ [digitChar (n % 10)]

/-- Decimal digit list of a natural number. -/
def natRepr (n : Nat) : List Char := natDigitsAux (n + 1) n

/-- `str(int)`. -/
def intRepr (n : Int) : String :=
  (if n < 0 then "-" else "") ++ ⟨natRepr n.natAbs⟩

/-- Smallest power of ten clearing the denominator (with fuel; a binary
float's denominator always divides a power of ten). -/
def findPow10 : Nat → ℚ → Nat
  | 0, _ => 0
  | fuel + 1, q => if q.den = 1 then 0 else 1 + findPow10 fuel (q * 10)

/-- Decimal rendering of a finite float value (`str(float)`); enough of
CPython's shortest-repr to be exact on terminating decimals. -/
def ratDecimalRepr (q : ℚ) : String :=
  let k := findPow10 400 q
  let scaled : Int := (q * (10 : ℚ) ^ k).num
  let ds := natRepr scaled.natAbs
  let ds := if ds.length ≤ k then List.replicate (k + 1 - ds.length) '0' ++ ds else ds
  let ip := ds.take (ds.length - k)
  let fp := ds.drop (ds.length - k)
  (if q < 0 then "-" else "") ++ (⟨ip⟩ : String) ++ "." ++ (if k = 0 then "0" else (⟨fp⟩ : String))

/-- `str(float)` / `repr(float)`. -/
def floatRepr : PyFloat → String
  | .finite q => ratDecimalRepr q
  | .inf => "inf"
  | .negInf => "-inf"
  | .nan => "nan"

/-- `repr(v)` for the values this program prints inside containers; the
fuel bounds nesting depth (the program's data is flat). -/
def pyReprF : Nat → PyVal → String
  | _, .vnone => "None"
  | _, .vbool b => if b then "True" else "False"
  | _, .vint n => intRepr n
  | _, .vfloat f => floatRepr f
  | _, .vstr s => "\x27" ++ s ++ "\x27"
  | 0, _ => ""
  | fuel + 1, .vlist xs =>
    "[" ++ String.intercalate ", " (xs.map (pyReprF fuel)) ++ "]"
  | fuel + 1, .vdict ps =>
    "\x7b" ++
      String.intercalate ", "
        (ps.map (fun p => "\x27" ++ p.1 ++ "\x27: " ++ pyReprF fuel p.2)) ++
      "\x7d"

/-- `str(v)`: the string itself for strings, `repr` otherwise. -/
def pyStr : PyVal → String
  | .vstr s => s
  | w => pyReprF 100 w

/-- Boolean prefix test on character lists (the anchored regular
expression matches of `services.py` reduce to this). -/
def listPre : List Char → List Char → Bool
  | [], _ => true
  | _ :: _, [] => false
  | p :: ps, c :: cs => p = c && listPre ps cs

/-- The construction-time failures of the program. -/
inductive PyErr where
  | typeError
  | valueError (msg : String)
  | attributeError
  | overflowError
  deriving DecidableEq

/-- `services.validate_title` (services.py lines 11-23). -/
def validate_title (title : String) : String :=
  if pyStrip title = "" then "Вакансия без названия" else pyStrip title

/-- `services.validate_url` (services.py lines 26-44), applied to the raw
value the constructor passes it.  A falsy argument returns the empty
string; a truthy non-string raises `AttributeError` at `url.strip()`; a
non-blank string must match `^https?://` or `ValueError` is raised with
the stripped value in the message. -/
def validate_url : PyVal → Except PyErr String
  | .vstr s =>
    if pyStrip s = "" then .ok ""
    else if listPre "http://".data (pyStrip s).data
        || listPre "https://".data (pyStrip s).data then .ok (pyStrip s)
    else .error (.valueError ("Некорректный URL: " ++ pyStrip s))
  | w => if w.truthy then .error .attributeError else .ok ""

/-- Tag removal of `services.clean_html`: drop every span `<...>` with at
least one non-`>` character inside, scanning left to right as `re.sub`
does.  The fuel is the input length. -/
def stripTagsF : Nat → List Char → List Char
  | 0, cs => cs
  | _, [] => []
  | fuel + 1, c :: rest =>
    if c = '<' then
      let body := rest.takeWhile (fun x => x != '>')
      if body.isEmpty then c :: stripTagsF fuel rest
      else if body.length < rest.length then stripTagsF fuel (rest.drop (body.length + 1))
      else c :: stripTagsF fuel rest
    else c :: stripTagsF fuel rest

/-- `services.clean_html` (services.py lines 47-59). -/
def cleanHtml (s : String) : String :=
  pyStrip ⟨stripTagsF (s.data.length + 1) s.data⟩

/-- The alternation `(месяц|недел|день|год)` of the probation regex with
its fixed genitive suffixes (services.py lines 74-87); the scanned text is
already lowercased. -/
def unitSuffix? (cs : List Char) : Option String :=
  if listPre "месяц".data cs then some "месяца"
  else if listPre "недел".data cs then some "недели"
  else if listPre "день".data cs then some "дня"
  else if listPre "год".data cs then some "года"
  else none

/-- One anchored attempt of `(\d+)\s*(месяц|недел|день|год)а?`.  Maximal
munch of digits and spaces is equivalent to the regex here because no
alternative begins with a digit or a space. -/
def probMatchAt (cs : List Char) : Option String :=
  let ds := cs.takeWhile Char.isDigit
  if ds.isEmpty then none
  else
    let rest := (cs.drop ds.length).dropWhile isPySpace
    (unitSuffix? rest).map (fun suf => (⟨ds⟩ : String) ++ " " ++ suf)

/-- `re.search`: leftmost successful attempt. -/
def probScan : List Char → Option String
  | [] => none
  | c :: rest =>
    match probMatchAt (c :: rest) with
    | some r => some r
    | none => probScan rest

/-- `services.extract_probation_period` (services.py lines 62-88);
`re.IGNORECASE` is modelled by lowercasing the text first (digits and the
emitted suffixes are case-invariant). -/
def extractProbation (text : String) : Option String :=
  probScan (text.data.map pyLowerChar)

/-- Numeric value of a digit list. -/
def digitsVal (ds : List Char) : Nat :=
  ds.foldl (fun a c => a * 10 + (c.toNat - 48)) 0

/-- Exponent digits (after `e`/`E`) of a float literal. -/
def parseExpDigits : List Char → Option Int
  | '+' :: r => if r.isEmpty || !(r.all Char.isDigit) then none else some (digitsVal r)
  | '-' :: r => if r.isEmpty || !(r.all Char.isDigit) then none else some (-(digitsVal r : Int))
  | r => if r.isEmpty || !(r.all Char.isDigit) then none else some (digitsVal r)

/-- Apply a decimal exponent. -/
def applyExp (base : ℚ) (e : Int) : ℚ :=
  if 0 ≤ e then base * (10 : ℚ) ^ e.natAbs else base / (10 : ℚ) ^ e.natAbs

/-- Finish a float literal after the mantissa: end of input or exponent. -/
def finishParse (neg : Bool) (base : ℚ) : List Char → Option PyFloat
  | [] => some (.finite (if neg then -base else base))
  | 'e' :: r => (parseExpDigits r).map (fun e => .finite (if neg then -(applyExp base e) else applyExp base e))
  | 'E' :: r => (parseExpDigits r).map (fun e => .finite (if neg then -(applyExp base e) else applyExp base e))
  | _ => none

/-- `float(s)` on an already-stripped string: optional sign, then
`inf`/`infinity`/`nan` (case-insensitive) or a decimal literal with
optional fraction and exponent.  Underscore separators and binary
rounding/overflow of large literals are not modelled; literal values are
taken exactly. -/
def pyFloatParse (s : String) : Option PyFloat :=
  let (neg, cs) :=
    match s.data with
    | '+' :: r => (false, r)
    | '-' :: r => (true, r)
    | r => (false, r)
  let low := cs.map pyLowerChar
  if low = "inf".data || low = "infinity".data then
    some (if neg then .negInf else .inf)
  else if low = "nan".data then some .nan
  else
    let ip := cs.takeWhile Char.isDigit
    let rest := cs.drop ip.length
    match rest with
    | '.' :: r2 =>
      let fp := r2.takeWhile Char.isDigit
      let r3 := r2.drop fp.length
      if ip.isEmpty && fp.isEmpty then none
      else
        finishParse neg ((digitsVal ip : ℚ) + (digitsVal fp : ℚ) / (10 : ℚ) ^ fp.length) r3
    | _ =>
      if ip.isEmpty then none
      else finishParse neg (digitsVal ip : ℚ) rest

/-- `int()` truncation toward zero of an exact rational. -/
def truncQ (q : ℚ) : Int := Int.tdiv q.num q.den

/-- `Vacancy._normalize_salary_value` (vacancy.py lines 235-256).
Python's `bool` is an `int` subclass, so booleans take the numeric
branch.  `int(инф)` raises `OverflowError`, which the surrounding
`except (ValueError, TypeError)` does not catch; `int(nan)` raises
`ValueError`, uncaught on the direct float branch (no `try` there) but
caught on the string branch. -/
def normalizeSalary : PyVal → Except PyErr ℚ
  | .vnone => .ok 0
  | .vbool b => .ok (if b then 1 else 0)
  | .vint n => .ok (n : ℚ)
  | .vfloat (.finite q) => .ok ((truncQ q : Int) : ℚ)
  | .vfloat .inf => .error .overflowError
  | .vfloat .negInf => .error .overflowError
  | .vfloat .nan => .error (.valueError "cannot convert float NaN to integer")
  | .vstr s =>
    let t := pyStrip s
    if t = "none" || t = "null" || t = "" then .ok 0
    else
      match pyFloatParse t with
      | none => .ok 0
      | some (.finite q) => .ok ((truncQ q : Int) : ℚ)
      | some .inf => .error .overflowError
      | some .negInf => .error .overflowError
      | some .nan => .ok 0
  | .vlist _ => .ok 0
  | .vdict _ => .ok 0

/-- `gross` parsing (vacancy.py lines 85-91 and 102-108; the two branches
are textually identical). -/
def parseGross : PyVal → Bool
  | .vnone => true
  | .vstr s =>
    let t := pyStrip (pyLower s)
    t = "true" || t = "1" || t = "yes" || t = "да"
  | w => w.truthy

/-- `currency` resolution (vacancy.py lines 80-84 and 97-101). -/
def parseCurrency (v : PyVal) : String :=
  if v.truthy && !(["none", "null"].contains (pyLower (pyStr v))) then pyStr v
  else "RUB"

/-- The four salary-block values: raw `from`, raw `to`, currency, gross,
taken from the nested `salary` mapping when it is a truthy dict, else from
the flat fields (vacancy.py lines 74-108). -/
def salaryCurrencyGross (d : PyDict) : PyVal × PyVal × String × Bool :=
  match truthyDict? (dgetD d "salary" .vnone) with
  | some sd =>
    (dgetD sd "from" .vnone, dgetD sd "to" .vnone,
     parseCurrency (dgetD sd "currency" .vnone), parseGross (dgetD sd "gross" .vnone))
  | none =>
    (dgetD d "salary_from" .vnone, dgetD d "salary_to" .vnone,
     parseCurrency (dgetD d "currency" .vnone), parseGross (dgetD d "gross" .vnone))

/-- `id` field (vacancy.py lines 40-41). -/
def idOf (d : PyDict) : String :=
  match dgetD d "id" .vnone with
  | .vnone => ""
  | v => pyStr v

/-- `data.get("title") or data.get("name")` (vacancy.py line 44). -/
def titleArg (d : PyDict) : PyVal :=
  pyOr (dgetD d "title" .vnone) (dgetD d "name" .vnone)

/-- Title normalization before `validate_title` (vacancy.py lines 44-51). -/
def titleOf (d : PyDict) : String :=
  let t0 : String :=
    match titleArg d with
    | .vnone => ""
    | .vstr s => if ["none", "null", ""].contains (pyLower s) then "" else pyStrip s
    | w => pyStrip (pyStr w)
  validate_title t0

/-- `data.get("url") or data.get("alternate_url", "")` (vacancy.py
line 54). -/
def urlField (d : PyDict) : PyVal :=
  pyOr (dgetD d "url" .vnone) (dgetD d "alternate_url" (.vstr ""))

/-- The argument handed to `validate_url`: `url_val if url_val else ""`
(vacancy.py line 55). -/
def urlArg (d : PyDict) : PyVal :=
  if (urlField d).truthy then urlField d else .vstr ""

/-- Raw employer name and url values: nested `employer.name` /
`employer.url` when `employer` is a truthy dict, else the flat fields
(vacancy.py lines 57-64).  Note the source reads the nested key `url`,
not `alternate_url`, and applies no normalization to the url value. -/
def employerVals (d : PyDict) : PyVal × PyVal :=
  match truthyDict? (dgetD d "employer" .vnone) with
  | some ed => (dgetD ed "name" .vnone, dgetD ed "url" .vnone)
  | none => (dgetD d "employer_name" .vnone, dgetD d "employer_url" .vnone)

/-- Employer-name normalization (vacancy.py lines 66-72). -/
def employerNameOf : PyVal → String
  | .vnone => "Не указано"
  | .vstr s =>
    if ["none", "null", "not specified"].contains (pyLower s) then "Не указано" else s
  | w => pyStr w

/-- Snippet/flat free-text values (vacancy.py lines 114-121). -/
def snippetVals (d : PyDict) : PyVal × PyVal :=
  match truthyDict? (dgetD d "snippet" .vnone) with
  | some sn => (dgetD sn "responsibility" (.vstr ""), dgetD sn "requirement" (.vstr ""))
  | none => (dgetD d "responsibilities" (.vstr ""), dgetD d "requirements" (.vstr ""))

/-- `clean_html(str(v) if v else "")` (vacancy.py lines 123-128). -/
def textOf (v : PyVal) : String :=
  cleanHtml (if v.truthy then pyStr v else "")

/-- Literal parsing helpers for `professional_roles`: `skipWs`. -/
def skipWs (cs : List Char) : List Char := cs.dropWhile isPySpace

/-- A quoted string literal (either quote style, no escapes; the program
serializes only plain names). -/
def parseStringLit : List Char → Option (String × List Char)
  | q :: rest =>
    if q = '\x27' || q = '"' then
      let body := rest.takeWhile (fun c => c != q)
      match rest.drop body.length with
      | _ :: r3 => some (⟨body⟩, r3)
      | [] => none
    else none
  | [] => none

/-- A scalar literal token: quoted string or integer. -/
def parseScalarTok (cs : List Char) : Option (PyVal × List Char) :=
  match parseStringLit cs with
  | some (s, rest) => some (.vstr s, rest)
  | none =>
    let (neg, cs2) := match cs with | '-' :: r => (true, r) | r => (false, r)
    let ds := cs2.takeWhile Char.isDigit
    if ds.isEmpty then none
    else some (.vint (if neg then -(digitsVal ds : Int) else (digitsVal ds : Int)), cs2.drop ds.length)

/-- Body of a flat dict literal after `{`: pairs `"key": scalar` separated
by commas.  Fuel bounds the number of pairs. -/
def parseDictRest : Nat → List Char → Option (PyDict × List Char)
  | 0, _ => none
  | fuel + 1, cs =>
    match skipWs cs with
    | '\x7d' :: r => some ([], r)
    | cs2 =>
      match parseStringLit cs2 with
      | none => none
      | some (k, r1) =>
        match skipWs r1 with
        | ':' :: r2 =>
          match parseScalarTok (skipWs r2) with
          | none => none
          | some (v, r3) =>
            match skipWs r3 with
            | ',' :: r4 => (parseDictRest fuel r4).map (fun p => ((k, v) :: p.1, p.2))
            | '\x7d' :: r4 => some ([(k, v)], r4)
            | _ => none
        | _ => none

/-- Body of a flat list literal after `[`: scalars or flat dict literals
separated by commas. -/
def parseListRest : Nat → List Char → Option (List PyVal × List Char)
  | 0, _ => none
  | fuel + 1, cs =>
    match skipWs cs with
    | ']' :: r => some ([], r)
    | cs2 =>
      let elem : Option (PyVal × List Char) :=
        match cs2 with
        | '\x7b' :: r => (parseDictRest fuel r).map (fun p => (.vdict p.1, p.2))
        | _ => parseScalarTok cs2
      match elem with
      | none => none
      | some (v, r1) =>
        match skipWs r1 with
        | ',' :: r2 => (parseListRest fuel r2).map (fun p => (v :: p.1, p.2))
        | ']' :: r2 => some ([v], r2)
        | _ => none

/-- Defensive literal parsing used for string-encoded roles: a single
model of the `json.loads`-after-quote-replacement and `ast.literal_eval`
fallback chain of vacancy.py lines 135-164, covering the flat literal
shapes this program itself serializes (lists of quoted strings or flat
dicts, flat dicts, scalars).  Anything else is a parse failure, as in the
source's final fallback. -/
def pyLiteralEval (s : String) : Option PyVal :=
  let cs := skipWs s.data
  match cs with
  | '[' :: r =>
    (parseListRest (r.length + 1) r).bind
      (fun p => if (skipWs p.2).isEmpty then some (.vlist p.1) else none)
  | '\x7b' :: r =>
    (parseDictRest (r.length + 1) r).bind
      (fun p => if (skipWs p.2).isEmpty then some (.vdict p.1) else none)
  | _ =>
    (parseScalarTok cs).bind
      (fun p => if (skipWs p.2).isEmpty then some p.1 else none)

/-- One element of the roles loop (vacancy.py lines 142-172): a string is
parsed defensively and contributes its `name` value when it encodes a
dict carrying one, otherwise the raw string; a dict contributes its
`name` value or its `str()`; anything else its `str()`. -/
def roleEntry (role : PyVal) : PyVal :=
  match role with
  | .vstr s =>
    match pyLiteralEval s with
    | some (.vdict rd) =>
      match dget rd "name" with
      | some nv => nv
      | none => .vstr s
    | _ => .vstr s
  | .vdict rd =>
    match dget rd "name" with
    | some nv => nv
    | none => .vstr (pyStr (.vdict rd))
  | w => .vstr (pyStr w)

/-- `professional_roles` (vacancy.py lines 133-172): a string value is
parsed as a literal (failure yields `[]`); a non-list or empty result
contributes nothing; a list is mapped through `roleEntry`. -/
def rolesOf (d : PyDict) : List PyVal :=
  let roles0 := dgetD d "professional_roles" (.vlist [])
  let roles1 :=
    match roles0 with
    | .vstr s => (pyLiteralEval s).getD (.vlist [])
    | v => v
  match roles1 with
  | .vlist rs => if rs.isEmpty then [] else rs.map roleEntry
  | _ => []

/-- `experience` (vacancy.py lines 174-190).  Every plain string — even a
non-placeholder one — is treated as invalid by the source (lines
181-187), so only a dict can contribute a value. -/
def experienceOf : PyVal → PyVal
  | .vnone => .vstr "Не указан"
  | .vdict ed => dgetD ed "name" (.vstr "Не указан")
  | .vstr _ => .vstr "Не указан"
  | _ => .vstr "Не указан"

/-- `probation_period` (vacancy.py lines 192-203). -/
def probationOf (d : PyDict) (resp req : String) : Option String :=
  match dgetD d "probation_period" .vnone with
  | .vnone => extractProbation (resp ++ " " ++ req)
  | .vstr s =>
    if ["none", "null", ""].contains (pyLower s) then extractProbation (resp ++ " " ++ req)
    else some s
  | w => some (pyStr w)

/-- Raw address values: nested `address.*` when `address` is a truthy
dict, else flat (vacancy.py lines 205-214). -/
def addressVals (d : PyDict) : PyVal × PyVal × PyVal :=
  match truthyDict? (dgetD d "address" .vnone) with
  | some ad => (dgetD ad "city" .vnone, dgetD ad "street" .vnone, dgetD ad "building" .vnone)
  | none => (dgetD d "city" .vnone, dgetD d "street" .vnone, dgetD d "building" .vnone)

/-- City normalization (vacancy.py lines 216-222). -/
def cityOf : PyVal → String
  | .vnone => "Не указан"
  | .vstr s =>
    if ["none", "null", "not specified"].contains (pyLower s) then "Не указан" else s
  | w => pyStr w

/-- Street/building normalization (vacancy.py lines 224-233). -/
def streetOf (v : PyVal) : String :=
  if v.truthy && !(["none", "null"].contains (pyLower (pyStr v))) then pyStr v else ""

/-- The canonical record, mirroring `Vacancy.__slots__`.  `salary_from`
and `salary_to` hold exact decimals (`ℚ`); `employer_url` and
`experience` are stored uncoerced, as in the source. -/
structure Vacancy where
  id : String
  title : String
  url : String
  employer_name : String
  employer_url : PyVal
  salary_from : ℚ
  salary_to : ℚ
  currency : String
  gross : Bool
  responsibilities : String
  requirements : String
  professional_roles : List PyVal
  experience : PyVal
  probation_period : Option String
  city : String
  street : String
  building : String

/-- Assembly of all fail-soft fields (everything except the type check,
URL validation and salary normalization, which surround this in
`vacancyInit`). -/
def mkVacancy (d : PyDict) (url : String) (sf st : ℚ) : Vacancy :=
  let scg := salaryCurrencyGross d
  let sn := snippetVals d
  let resp := textOf sn.1
  let req := textOf sn.2
  let ev := employerVals d
  let av := addressVals d
  { id := idOf d
    title := titleOf d
    url := url
    employer_name := employerNameOf ev.1
    employer_url := ev.2
    salary_from := sf
    salary_to := st
    currency := scg.2.2.1
    gross := scg.2.2.2
    responsibilities := resp
    requirements := req
    professional_roles := rolesOf d
    experience := experienceOf (dgetD d "experience" .vnone)
    probation_period := probationOf d resp req
    city := cityOf av.1
    street := streetOf av.2.1
    building := streetOf av.2.2 }

/-- `Vacancy.__init__` (vacancy.py lines 31-233).  A non-dict raises
`TypeError`; URL validation runs before salary normalization (`from`
before `to`), matching the source's statement order; every other field is
fail-soft. -/
def vacancyInit (v : PyVal) : Except PyErr Vacancy :=
  match v with
  | .vdict d =>
    match validate_url (urlArg d) with
    | .error e => .error e
    | .ok url =>
      match normalizeSalary (salaryCurrencyGross d).1 with
      | .error e => .error e
      | .ok sf =>
        match normalizeSalary (salaryCurrencyGross d).2.1 with
        | .error e => .error e
        | .ok st => .ok (mkVacancy d url sf st)
  | _ => .error .typeError

/-- `Vacancy.average_salary` (vacancy.py lines 304-311).
`_get_numeric_salary` is the identity on the exact decimals the record
stores (vacancy.py lines 258-275), so it is inlined here. -/
def Vacancy.averageSalary (v : Vacancy) : ℚ :=
  if v.salary_from = 0 ∧ v.salary_to = 0 then 0
  else (v.salary_from + v.salary_to) / 2

/-- Round-half-even to an integer, as `format(x, ",.0f")` does.  The
fractional part `q - f = rnum/den` is compared with `1/2` through the
cross-multiplied integers `2*rnum` and `den`. -/
def roundHalfEven (q : ℚ) : Int :=
  let f := Int.fdiv q.num q.den
  let rnum := q.num - f * q.den
  if 2 * rnum < (q.den : Int) then f
  else if (q.den : Int) < 2 * rnum then f + 1
  else if Int.emod f 2 = 0 then f else f + 1

/-- Insert thousands separators walking a reversed digit list. -/
def groupRev : List Char → Nat → List Char
  | [], _ => []
  | c :: rest, k =>
    if k = 2 && !rest.isEmpty then c :: ',' :: groupRev rest 0
    else c :: groupRev rest (k + 1)

/-- `f"{x:,.0f}"`: thousands separators, zero decimal places. -/
def fmtAmount (q : ℚ) : String :=
  let n := roundHalfEven q
  (if n < 0 then "-" else "") ++ (⟨(groupRev (natRepr n.natAbs).reverse 0).reverse⟩ : String)

/-- `'gross' if self.gross else 'net'`. -/
def grossTag (g : Bool) : String := if g then "gross" else "net"

/-- `Vacancy.salary_info` (vacancy.py lines 277-302). -/
def Vacancy.salaryInfo (v : Vacancy) : String :=
  let f := v.salary_from
  let t := v.salary_to
  if f = 0 ∧ t = 0 then "Зарплата не указана"
  else if f = t ∧ 0 < f then
    fmtAmount f ++ " " ++ v.currency ++ " (" ++ grossTag v.gross ++ ")"
  else
    let fa : Option String := if 0 < f then some (fmtAmount f) else none
    let ta : Option String := if 0 < t then some (fmtAmount t) else none
    match fa, ta with
    | some a, some b =>
      "от " ++ a ++ " до " ++ b ++ " " ++ v.currency ++ " (" ++ grossTag v.gross ++ ")"
    | some a, none => "от " ++ a ++ " " ++ v.currency ++ " (" ++ grossTag v.gross ++ ")"
    | none, some b => "до " ++ b ++ " " ++ v.currency ++ " (" ++ grossTag v.gross ++ ")"
    | none, none => "зарплата не указана"

/-- `Vacancy.__str__` (vacancy.py lines 338-342): pipe-join of the
non-empty parts. -/
def Vacancy.displayString (v : Vacancy) : String :=
  let cityPart := if v.city = "Не указан" then "" else v.city
  String.intercalate " | " (([v.title, v.salaryInfo, cityPart]).filter (fun s => !(s == "")))

/-- `Vacancy.to_dict` (vacancy.py lines 352-387), as the entry list of the
emitted dict; zero salary bounds and zero average are emitted as `None`,
others as truncated ints, and the title placeholder rule is re-applied. -/
def Vacancy.toDictEntries (v : Vacancy) : PyDict :=
  [("id", .vstr v.id),
   ("title", .vstr (if v.title = "" ∨ v.title = "Вакансия без названия"
      then "Вакансия без названия" else v.title)),
   ("url", .vstr v.url),
   ("employer_name", .vstr v.employer_name),
   ("employer_url", v.employer_url),
   ("salary_from", if v.salary_from = 0 then .vnone else .vint (truncQ v.salary_from)),
   ("salary_to", if v.salary_to = 0 then .vnone else .vint (truncQ v.salary_to)),
   ("currency", .vstr v.currency),
   ("gross", .vbool v.gross),
   ("responsibilities", .vstr v.responsibilities),
   ("requirements", .vstr v.requirements),
   ("professional_roles", .vlist v.professional_roles),
   ("experience", v.experience),
   ("probation_period", match v.probation_period with | some s => .vstr s | none => .vnone),
   ("city", .vstr v.city),
   ("street", .vstr v.street),
   ("building", .vstr v.building),
   ("salary_info", .vstr v.salaryInfo),
   ("average_salary", if v.averageSalary = 0 then .vnone else .vint (truncQ v.averageSalary))]

/-- `Vacancy.to_dict` as a `PyVal`. -/
def Vacancy.toDict (v : Vacancy) : PyVal := .vdict v.toDictEntries

/-- The right operand of a comparison dunder: another record or any other
Python value. -/
inductive CmpArg where
  | vac (v : Vacancy)
  | other (v : PyVal)

/-- Result of a comparison dunder: a boolean, or the `NotImplemented`
sentinel returned for non-record operands. -/
inductive CmpRes where
  | res (b : Bool)
  | notImplemented
  deriving DecidableEq

/-- `Vacancy.__eq__` (vacancy.py lines 313-316). -/
def Vacancy.eqPy (self : Vacancy) : CmpArg → CmpRes
  | .vac o => .res (decide (self.averageSalary = o.averageSalary))
  | .other _ => .notImplemented

/-- `Vacancy.__lt__` (vacancy.py lines 318-321). -/
def Vacancy.ltPy (self : Vacancy) : CmpArg → CmpRes
  | .vac o => .res (decide (self.averageSalary < o.averageSalary))
  | .other _ => .notImplemented

/-- `Vacancy.__le__` (vacancy.py lines 323-326). -/
def Vacancy.lePy (self : Vacancy) : CmpArg → CmpRes
  | .vac o => .res (decide (self.averageSalary ≤ o.averageSalary))
  | .other _ => .notImplemented

/-- `Vacancy.__gt__` (vacancy.py lines 328-331). -/
def Vacancy.gtPy (self : Vacancy) : CmpArg → CmpRes
  | .vac o => .res (decide (o.averageSalary < self.averageSalary))
  | .other _ => .notImplemented

/-- `Vacancy.__ge__` (vacancy.py lines 333-336). -/
def Vacancy.gePy (self : Vacancy) : CmpArg → CmpRes
  | .vac o => .res (decide (o.averageSalary ≤ self.averageSalary))
  | .other _ => .notImplemented

/-- Numeric view used by Python `==` across `bool`/`int`/`float`. -/
def pyNumQ : PyVal → Option ℚ
  | .vint n => some (n : ℚ)
  | .vbool b => some (if b then 1 else 0)
  | .vfloat (.finite q) => some q
  | _ => none

/-- Python `==` on the values compared by the store (scalars; the fuel
bounds container nesting).  `nan != nan` as in IEEE; CPython's identity
shortcut inside containers is not modelled; dict equality is modelled
order-sensitively, but dicts are unhashable and the modelled store
operations fail before ever comparing one. -/
def pyEqF : Nat → PyVal → PyVal → Bool
  | 0, _, _ => false
  | fuel + 1, a, b =>
    match pyNumQ a, pyNumQ b with
    | some x, some y => decide (x = y)
    | _, _ =>
      match a, b with
      | .vnone, .vnone => true
      | .vstr s, .vstr t => s == t
      | .vfloat .inf, .vfloat .inf => true
      | .vfloat .negInf, .vfloat .negInf => true
      | .vlist xs, .vlist ys =>
        xs.length == ys.length && (List.zip xs ys).all (fun p => pyEqF fuel p.1 p.2)
      | .vdict ps, .vdict qs =>
        ps.length == qs.length &&
          (List.zip ps qs).all (fun p => p.1.1 == p.2.1 && pyEqF fuel p.1.2 p.2.2)
      | _, _ => false

/-- Python `==` (depth-bounded as above). -/
def pyEqB (a b : PyVal) : Bool := pyEqF 100 a b

/-- Values `set.add` / `in set` can hash; lists and dicts raise
`TypeError`. -/
def hashableB : PyVal → Bool
  | .vlist _ => false
  | .vdict _ => false
  | _ => true

/-- `item.get("id")` for a stored record. -/
def itemIdOf : PyVal → PyVal
  | .vdict d => dgetD d "id" .vnone
  | _ => .vnone

/-- `{item.get("id") for item in existing_data if item.get("id")}`
(fileworker.py line 91): truthy ids of the pre-existing records.  A
non-dict record raises `AttributeError` at `.get`; adding an unhashable
truthy id raises `TypeError`. -/
def buildIds : List PyVal → Except PyErr (List PyVal)
  | [] => .ok []
  | it :: rest =>
    match it with
    | .vdict d =>
      let idv := dgetD d "id" .vnone
      if idv.truthy then
        if hashableB idv then (buildIds rest).map (fun ids => idv :: ids)
        else .error .typeError
      else buildIds rest
    | _ => .error .attributeError

/-- `x in ids` (set membership by equality; hashability is checked by the
caller). -/
def pyMemB (x : PyVal) (ids : List PyVal) : Bool := ids.any (fun y => pyEqB x y)

/-- `[item for item in data if item.get("id") not in existing_ids]`
(fileworker.py line 92).  Membership of an unhashable id raises
`TypeError`. -/
def selectNew (ids : List PyVal) : List PyVal → Except PyErr (List PyVal)
  | [] => .ok []
  | it :: rest =>
    let idv := itemIdOf it
    if hashableB idv then
      if pyMemB idv ids then selectNew ids rest
      else (selectNew ids rest).map (fun l => it :: l)
    else .error .typeError

/-- `JSONFileWorker.save_data` (fileworker.py lines 72-100) as a pure
state transformation: `existing` is the parsed content of the file before
the call, the result the content written back.  Items to save must all be
dicts (else `ValueError`); deduplication keeps every incoming item whose
id is not among the truthy ids already stored. -/
def saveData (existing toSave : List PyVal) : Except PyErr (List PyVal) :=
  if toSave.all (fun it => match it with | .vdict _ => true | _ => false) then
    match buildIds existing with
    | .error e => .error e
    | .ok ids => (selectNew ids toSave).map (fun uniq => existing ++ uniq)
  else .error (.valueError "Данные для сохранения должны быть словарями")

/-- Number of stored records whose id equals (`==`) the given value. -/
def countWithId (store : List PyVal) (idv : PyVal) : Nat :=
  (store.filter (fun it => pyEqB (itemIdOf it) idv)).length

/-! ### Basic list and string lemmas -/

theorem dropWhile_head_false (p : Char → Bool) (l : List Char) :
    ∀ c t, l.dropWhile p = c :: t → p c = false := by
  induction l with
  | nil => intro c t h; simp [List.dropWhile] at h
  | cons a as ih =>
    intro c t h
    by_cases hp : p a
    · rw [List.dropWhile_cons_of_pos hp] at h
      exact ih c t h
    · rw [List.dropWhile_cons_of_neg hp] at h
      cases h
      simpa using hp

theorem dropWhile_suffix (p : Char → Bool) (l : List Char) :
    ∃ t, t ++ l.dropWhile p = l := by
  induction l with
  | nil => exact ⟨[], rfl⟩
  | cons a as ih =>
    by_cases hp : p a
    · obtain ⟨t, ht⟩ := ih
      exact ⟨a :: t, by simp [List.dropWhile_cons_of_pos hp, ht]⟩
    · exact ⟨[], by simp [List.dropWhile_cons_of_neg hp]⟩

theorem dropWhile_of_head_false (p : Char → Bool) (l : List Char)
    (h : ∀ c t, l = c :: t → p c = false) : l.dropWhile p = l := by
  cases l with
  | nil => rfl
  | cons a as => exact List.dropWhile_cons_of_neg (by simp [h a as rfl])


/-- The first character of a stripped string is not a space. -/
theorem pyStrip_head (s : String) (c : Char) (t : List Char)
    (h : (pyStrip s).data = c :: t) : isPySpace c = false := by
  set A := s.data.dropWhile isPySpace with hA
  set B := A.reverse.dropWhile isPySpace with hB
  have h' : B.reverse = c :: t := h
  have hBne : B ≠ [] := by
    intro hb
    rw [hb] at h'
    exact absurd h' (by simp)
  have hlastB : B.getLast? = some c := by
    have : B.reverse.head? = some c := by rw [h']; rfl
    rwa [List.head?_reverse] at this
  obtain ⟨t2, ht2⟩ := dropWhile_suffix isPySpace A.reverse
  rw [← hB] at ht2
  have hAr : A.reverse.getLast? = some c := by
    rw [← ht2, List.getLast?_append_of_ne_nil _ hBne]
    exact hlastB
  rw [List.getLast?_reverse] at hAr
  cases hAc : A with
  | nil => rw [hAc] at hAr; exact absurd hAr (by simp)
  | cons a as =>
    rw [hAc] at hAr
    simp only [List.head?_cons, Option.some.injEq] at hAr
    subst hAr
    exact dropWhile_head_false isPySpace s.data a as (hA ▸ hAc)

/-- The last character of a stripped string is not a space. -/
theorem pyStrip_last (s : String) (c : Char)
    (h : (pyStrip s).data.getLast? = some c) : isPySpace c = false := by
  set A := s.data.dropWhile isPySpace with hA
  set B := A.reverse.dropWhile isPySpace with hB
  have h' : B.reverse.getLast? = some c := h
  rw [List.getLast?_reverse] at h'
  cases hBc : B with
  | nil => rw [hBc] at h'; exact absurd h' (by simp)
  | cons b bs =>
    rw [hBc] at h'
    simp only [List.head?_cons, Option.some.injEq] at h'
    subst h'
    exact dropWhile_head_false isPySpace A.reverse b bs (hB ▸ hBc)

/-- `str.strip()` is idempotent. -/
theorem pyStrip_idem (s : String) : pyStrip (pyStrip s) = pyStrip s := by
  have e1 : (pyStrip s).data.dropWhile isPySpace = (pyStrip s).data :=
    dropWhile_of_head_false _ _ (fun c t h => pyStrip_head s c t h)
  have e2 : (pyStrip s).data.reverse.dropWhile isPySpace = (pyStrip s).data.reverse :=
    dropWhile_of_head_false _ _ (fun c t h => by
      have hc : (pyStrip s).data.reverse.head? = some c := by rw [h]; rfl
      rw [List.head?_reverse] at hc
      exact pyStrip_last s c hc)
  show (⟨(((pyStrip s).data.dropWhile isPySpace).reverse.dropWhile isPySpace).reverse⟩ : String)
      = pyStrip s
  rw [e1, e2, List.reverse_reverse]

theorem pyLower_eq_empty_iff (s : String) : pyLower s = "" ↔ s = "" := by
  constructor
  · intro h
    cases s with
    | mk l =>
      cases l with
      | nil => rfl
      | cons c cs => exact absurd (congrArg String.data h) (by simp [pyLower])
  · intro h; rw [h]; rfl

/-! ### Lemmas about the text utilities -/

theorem validate_title_ne_empty (t : String) : validate_title t ≠ "" := by
  unfold validate_title
  split
  · intro h; simp at h
  · intro h; exact absurd h (by assumption)

theorem validate_title_stripped (t : String) :
    pyStrip (validate_title t) = validate_title t := by
  unfold validate_title
  split
  · rfl
  · exact pyStrip_idem t

theorem validate_title_of_fixed (t : String) (h1 : pyStrip t = t) (h2 : t ≠ "") :
    validate_title t = t := by
  unfold validate_title
  rw [h1]
  simp [h2]

/-- Shape of the url a successful validation produces: empty, or a
stripped `http(s)://`-prefixed string. -/
theorem validate_url_ok_cases (v : PyVal) (u : String)
    (h : validate_url v = .ok u) :
    u = "" ∨ (pyStrip u = u ∧
      (listPre "http://".data u.data || listPre "https://".data u.data) = true) := by
  cases v with
  | vstr s =>
    by_cases h0 : pyStrip s = ""
    · simp [validate_url, h0] at h
      left; exact h.symm
    · by_cases h1 : (listPre "http://".data (pyStrip s).data
          || listPre "https://".data (pyStrip s).data) = true
      · simp [validate_url, h0, h1] at h
        right
        subst h
        exact ⟨pyStrip_idem s, h1⟩
      · simp [validate_url, h0, h1] at h
  | vnone => simp [validate_url, PyVal.truthy] at h; left; exact h.symm
  | vbool b =>
    by_cases hb : (PyVal.vbool b).truthy = true
    · simp [validate_url, hb] at h
    · simp [validate_url, hb] at h; left; exact h.symm
  | vint n =>
    by_cases hb : (PyVal.vint n).truthy = true
    · simp [validate_url, hb] at h
    · simp [validate_url, hb] at h; left; exact h.symm
  | vfloat f =>
    by_cases hb : (PyVal.vfloat f).truthy = true
    · simp [validate_url, hb] at h
    · simp [validate_url, hb] at h; left; exact h.symm
  | vlist xs =>
    by_cases hb : (PyVal.vlist xs).truthy = true
    · simp [validate_url, hb] at h
    · simp [validate_url, hb] at h; left; exact h.symm
  | vdict ps =>
    by_cases hb : (PyVal.vdict ps).truthy = true
    · simp [validate_url, hb] at h
    · simp [validate_url, hb] at h; left; exact h.symm

/-- Re-validating a validated url succeeds and is the identity. -/
theorem validate_url_stable (v : PyVal) (u : String)
    (h : validate_url v = .ok u) : validate_url (.vstr u) = .ok u := by
  rcases validate_url_ok_cases v u h with h1 | ⟨h1, h2⟩
  · rw [h1]; rfl
  · have hne : u ≠ "" := by
      intro he
      rw [he] at h2
      exact absurd h2 (by decide)
    simp [validate_url, h1, hne, h2]

/-! ### Character-set facts: numeric renderings never collide with the
placeholder words -/

/-- Characters that can appear in a rendered number. -/
def goodChars : List Char :=
  ['0', '1', '2', '3', '4', '5', '6', '7', '8', '9', '-', '.']

theorem digitChar_mem (k : Nat) : digitChar k ∈ goodChars := by
  match k with
  | 0 | 1 | 2 | 3 | 4 | 5 | 6 | 7 | 8 => decide
  | n + 9 => exact (by decide : ('9' : Char) ∈ goodChars)

theorem natDigitsAux_mem (fuel : Nat) :
    ∀ n, ∀ c ∈ natDigitsAux fuel n, c ∈ goodChars := by
  induction fuel with
  | zero => intro n c hc; simp [natDigitsAux] at hc
  | succ fuel ih =>
    intro n c hc
    rw [natDigitsAux] at hc
    split at hc
    · simp at hc; subst hc; exact digitChar_mem n
    · rcases List.mem_append.mp hc with hc | hc
      · exact ih (n / 10) c hc
      · simp at hc; subst hc; exact digitChar_mem (n % 10)

theorem natRepr_mem (n : Nat) : ∀ c ∈ natRepr n, c ∈ goodChars :=
  natDigitsAux_mem (n + 1) n

theorem intRepr_mem (n : Int) : ∀ c ∈ (intRepr n).data, c ∈ goodChars := by
  intro c hc
  unfold intRepr at hc
  split at hc
  · have he : ("-" ++ (⟨natRepr n.natAbs⟩ : String)).data = '-' :: natRepr n.natAbs := rfl
    rw [he] at hc
    rcases List.mem_cons.mp hc with hc | hc
    · subst hc; decide
    · exact natRepr_mem n.natAbs c hc
  · have he : ("" ++ (⟨natRepr n.natAbs⟩ : String)).data = natRepr n.natAbs := rfl
    rw [he] at hc
    exact natRepr_mem n.natAbs c hc

theorem ratDecimalRepr_mem (q : ℚ) : ∀ c ∈ (ratDecimalRepr q).data, c ∈ goodChars := by
  intro c hc
  unfold ratDecimalRepr at hc
  set k := findPow10 400 q with hk
  set ds0 := natRepr (q * (10 : ℚ) ^ k).num.natAbs with hds0
  set ds : List Char :=
    if ds0.length ≤ k then List.replicate (k + 1 - ds0.length) '0' ++ ds0 else ds0 with hds
  have hdsmem : ∀ c ∈ ds, c ∈ goodChars := by
    intro c hc
    rw [hds] at hc
    split at hc
    · rcases List.mem_append.mp hc with hc | hc
      · rw [List.eq_of_mem_replicate hc]; decide
      · exact natRepr_mem _ c hc
    · exact natRepr_mem _ c hc
  have hsplit :
      ((if q < 0 then "-" else "") ++ (⟨ds.take (ds.length - k)⟩ : String) ++ "." ++
          (if k = 0 then "0" else (⟨ds.drop (ds.length - k)⟩ : String))).data
        = (if q < 0 then "-" else "").data ++ ds.take (ds.length - k) ++ ['.'] ++
          (if k = 0 then "0" else (⟨ds.drop (ds.length - k)⟩ : String)).data := rfl
  rw [hsplit] at hc
  rcases List.mem_append.mp hc with hc | hc
  · rcases List.mem_append.mp hc with hc | hc
    · rcases List.mem_append.mp hc with hc | hc
      · split at hc
        · simp at hc; subst hc; decide
        · simp at hc
      · exact hdsmem c (List.take_subset _ _ hc)
    · simp at hc; subst hc; decide
  · split at hc
    · simp at hc; subst hc; decide
    · exact hdsmem c (List.drop_subset _ _ hc)

theorem pyLowerChar_good (c : Char) (h : c ∈ goodChars) : pyLowerChar c = c := by
  fin_cases h <;> rfl

theorem good_pyLower_fix (s : String) (h : ∀ c ∈ s.data, c ∈ goodChars) :
    pyLower s = s := by
  show (⟨s.data.map pyLowerChar⟩ : String) = s
  rw [List.map_congr_left (fun c hc => pyLowerChar_good c (h c hc)),
    show (fun c : Char => c) = id from rfl, List.map_id]

/-- A string made of number characters is never one of the reserved
placeholder words. -/
theorem good_ne_reserved (s : String) (h : ∀ c ∈ s.data, c ∈ goodChars) :
    pyLower s ∉ (["none", "null", "not specified"] : List String) := by
  rw [good_pyLower_fix s h]
  intro hmem
  rcases (by simpa using hmem : s = "none" ∨ s = "null" ∨ s = "not specified")
      with h1 | h1 | h1 <;>
    (subst h1; exact absurd (h 'n' (by decide)) (by decide))

/-- A lowered string whose first character lowers to something other than
`n` is never a reserved placeholder word. -/
theorem head_not_reserved (x : String) (c0 : Char) (rest : List Char)
    (hd : x.data = c0 :: rest) (hc : pyLowerChar c0 ≠ 'n') :
    pyLower x ∉ (["none", "null", "not specified"] : List String) := by
  intro hmem
  have hdata : (pyLower x).data = pyLowerChar c0 :: rest.map pyLowerChar := by
    show (x.data.map pyLowerChar) = _
    rw [hd]; rfl
  rcases (by simpa using hmem :
      pyLower x = "none" ∨ pyLower x = "null" ∨ pyLower x = "not specified")
      with h1 | h1 | h1 <;>
    (rw [h1] at hdata; exact hc (List.head_eq_of_cons_eq hdata).symm)

/-- `str()` of a non-`None`, non-string value is never a reserved
placeholder word (booleans render capitalized, numbers render as digits,
containers start with a bracket). -/
theorem pyStr_not_reserved (w : PyVal) (h1 : w ≠ .vnone) (h2 : ∀ s, w ≠ .vstr s) :
    pyLower (pyStr w) ∉ (["none", "null", "not specified"] : List String) := by
  cases w with
  | vnone => exact absurd rfl h1
  | vstr s => exact absurd rfl (h2 s)
  | vbool b => cases b <;> decide
  | vint n => exact good_ne_reserved _ (intRepr_mem n)
  | vfloat f =>
    cases f with
    | finite q => exact good_ne_reserved _ (ratDecimalRepr_mem q)
    | inf => decide
    | negInf => decide
    | nan => decide
  | vlist xs =>
    exact head_not_reserved _ '[' _ rfl (by decide)
  | vdict ps =>
    exact head_not_reserved _ '\x7b' _ rfl (by decide)

/-! ### Salary normalization facts -/

theorem normalizeSalary_den (v : PyVal) (q : ℚ)
    (h : normalizeSalary v = .ok q) : q.den = 1 := by
  cases v with
  | vnone => cases h; rfl
  | vbool b => cases b <;> cases h <;> rfl
  | vint n => cases h; exact Rat.den_intCast n
  | vfloat f =>
    cases f with
    | finite q' => cases h; exact Rat.den_intCast _
    | inf => cases h
    | negInf => cases h
    | nan => cases h
  | vstr s =>
    simp only [normalizeSalary] at h
    split at h
    · cases h; rfl
    · split at h
      · cases h; rfl
      · cases h; exact Rat.den_intCast _
      · cases h
      · cases h
      · cases h; rfl
  | vlist xs => cases h; rfl
  | vdict ps => cases h; rfl

/-- An integral exact decimal truncates to its own numerator and is
recovered exactly by the int cast. -/
theorem truncQ_cast (q : ℚ) (h : q.den = 1) : ((truncQ q : Int) : ℚ) = q := by
  unfold truncQ
  rw [h]
  push_cast
  rw [Int.tdiv_one]
  conv_rhs => rw [← Rat.num_div_den q]
  rw [h]
  norm_num

theorem normalizeSalary_roundtrip (q : ℚ) (h : q.den = 1) :
    normalizeSalary (if q = 0 then .vnone else .vint (truncQ q)) = .ok q := by
  split
  · rename_i hq
    rw [hq]
    rfl
  · show Except.ok ((truncQ q : Int) : ℚ) = Except.ok q
    rw [truncQ_cast q h]

/-! ### City stability under serialization -/

theorem cityOf_vstr_of_not_reserved (x : String)
    (h : pyLower x ∉ (["none", "null", "not specified"] : List String)) :
    cityOf (.vstr x) = x := by
  simp only [cityOf]
  rw [if_neg (by simpa using h)]

theorem cityOf_stable (v : PyVal) : cityOf (.vstr (cityOf v)) = cityOf v := by
  have hPH : cityOf (.vstr "Не указан") = "Не указан" :=
    cityOf_vstr_of_not_reserved _ (by decide)
  cases v with
  | vnone => exact hPH
  | vstr s =>
    by_cases hm : (["none", "null", "not specified"].contains (pyLower s)) = true
    · have h1 : cityOf (.vstr s) = "Не указан" := by
        simp only [cityOf]; rw [if_pos hm]
      rw [h1]; exact hPH
    · have h1 : cityOf (.vstr s) = s := by
        simp only [cityOf]; rw [if_neg hm]
      rw [h1]; exact h1
  | vbool b =>
    exact cityOf_vstr_of_not_reserved _ (pyStr_not_reserved (.vbool b) (by simp) (by simp))
  | vint n =>
    exact cityOf_vstr_of_not_reserved _ (pyStr_not_reserved (.vint n) (by simp) (by simp))
  | vfloat f =>
    exact cityOf_vstr_of_not_reserved _ (pyStr_not_reserved (.vfloat f) (by simp) (by simp))
  | vlist xs =>
    exact cityOf_vstr_of_not_reserved _ (pyStr_not_reserved (.vlist xs) (by simp) (by simp))
  | vdict ps =>
    exact cityOf_vstr_of_not_reserved _ (pyStr_not_reserved (.vdict ps) (by simp) (by simp))

/-! ### Constructor characterization -/

/-- A successful construction comes from a dict and factors through the
two fallible steps (URL validation, salary normalization). -/
theorem vacancyInit_ok_elim (m : PyVal) (r : Vacancy) (h : vacancyInit m = .ok r) :
    ∃ d u sf st, m = .vdict d ∧ validate_url (urlArg d) = .ok u ∧
      normalizeSalary (salaryCurrencyGross d).1 = .ok sf ∧
      normalizeSalary (salaryCurrencyGross d).2.1 = .ok st ∧
      r = mkVacancy d u sf st := by
  cases m with
  | vdict d =>
    cases hu : validate_url (urlArg d) with
    | error e => simp [vacancyInit, hu] at h
    | ok u =>
      cases hsf : normalizeSalary (salaryCurrencyGross d).1 with
      | error e => simp [vacancyInit, hu, hsf] at h
      | ok sf =>
        cases hst : normalizeSalary (salaryCurrencyGross d).2.1 with
        | error e => simp [vacancyInit, hu, hsf, hst] at h
        | ok st =>
          simp only [vacancyInit, hu, hsf, hst, Except.ok.injEq] at h
          exact ⟨d, u, sf, st, rfl, hu, hsf, hst, h.symm⟩
  | vnone => simp [vacancyInit] at h
  | vbool b => simp [vacancyInit] at h
  | vint n => simp [vacancyInit] at h
  | vfloat f => simp [vacancyInit] at h
  | vstr s => simp [vacancyInit] at h
  | vlist xs => simp [vacancyInit] at h

theorem titleOf_ne_empty (d : PyDict) : titleOf d ≠ "" := by
  unfold titleOf
  exact validate_title_ne_empty _

theorem titleOf_stripped (d : PyDict) : pyStrip (titleOf d) = titleOf d := by
  unfold titleOf
  exact validate_title_stripped _

theorem averageSalary_congr (a b : Vacancy) (h1 : a.salary_from = b.salary_from)
    (h2 : a.salary_to = b.salary_to) : a.averageSalary = b.averageSalary := by
  unfold Vacancy.averageSalary
  rw [h1, h2]

/-! ### Re-construction from the serialized mapping -/

/-- Reloading a record's own serialization succeeds and reproduces the
url and the exact salary bounds. -/
theorem toDict_reinit (r : Vacancy)
    (hurl : validate_url (.vstr r.url) = .ok r.url)
    (hsf : r.salary_from.den = 1) (hst : r.salary_to.den = 1) :
    vacancyInit r.toDict =
      .ok (mkVacancy r.toDictEntries r.url r.salary_from r.salary_to) := by
  have hlook1 : dgetD r.toDictEntries "url" .vnone = .vstr r.url := rfl
  have hlook2 : dgetD r.toDictEntries "alternate_url" (.vstr "") = .vstr "" := rfl
  have hufld : urlField r.toDictEntries = (if r.url = "" then .vstr "" else .vstr r.url) := by
    unfold urlField pyOr
    rw [hlook1, hlook2]
    by_cases h : r.url = ""
    · simp [PyVal.truthy, h]
    · simp [PyVal.truthy, h]
  have hu : validate_url (urlArg r.toDictEntries) = .ok r.url := by
    unfold urlArg
    rw [hufld]
    by_cases h : r.url = ""
    · rw [if_pos h, h]
      rfl
    · simp [PyVal.truthy, h]
      exact hurl
  have hsfr : normalizeSalary (salaryCurrencyGross r.toDictEntries).1 = .ok r.salary_from := by
    have e : (salaryCurrencyGross r.toDictEntries).1 =
        (if r.salary_from = 0 then PyVal.vnone else .vint (truncQ r.salary_from)) := rfl
    rw [e]
    exact normalizeSalary_roundtrip _ hsf
  have hstr : normalizeSalary (salaryCurrencyGross r.toDictEntries).2.1 = .ok r.salary_to := by
    have e : (salaryCurrencyGross r.toDictEntries).2.1 =
        (if r.salary_to = 0 then PyVal.vnone else .vint (truncQ r.salary_to)) := rfl
    rw [e]
    exact normalizeSalary_roundtrip _ hst
  show vacancyInit (.vdict r.toDictEntries) = _
  simp only [vacancyInit, hu, hsfr, hstr]

/-- Reloading preserves a title that is not itself one of the reserved
words. -/
theorem titleOf_toDict (r : Vacancy) (h0 : r.title ≠ "")
    (hstrip : pyStrip r.title = r.title)
    (hres : pyLower r.title ∉ (["none", "null"] : List String)) :
    titleOf r.toDictEntries = r.title := by
  have hlook : dgetD r.toDictEntries "title" .vnone =
      .vstr (if r.title = "" ∨ r.title = "Вакансия без названия"
        then "Вакансия без названия" else r.title) := rfl
  have htv : titleArg r.toDictEntries = .vstr r.title := by
    unfold titleArg
    rw [hlook]
    have e : (if r.title = "" ∨ r.title = "Вакансия без названия"
        then "Вакансия без названия" else r.title) = r.title := by
      by_cases hp : r.title = "Вакансия без названия"
      · simp [hp]
      · rw [if_neg (by tauto)]
    rw [e]
    unfold pyOr
    simp [PyVal.truthy, h0]
  have hmem : pyLower r.title ∉ (["none", "null", ""] : List String) := by
    intro hm
    rcases (by simpa using hm :
        pyLower r.title = "none" ∨ pyLower r.title = "null" ∨ pyLower r.title = "") with
      h1 | h1 | h1
    · exact hres (by simp [h1])
    · exact hres (by simp [h1])
    · exact h0 ((pyLower_eq_empty_iff r.title).mp h1)
  have hcond : (["none", "null", ""].contains (pyLower r.title)) = false := by
    simpa using hmem
  unfold titleOf
  rw [htv]
  show validate_title (if (["none", "null", ""].contains (pyLower r.title)) = true
      then "" else pyStrip r.title) = r.title
  rw [hcond]
  simp only [Bool.false_eq_true, if_false]
  rw [hstrip]
  exact validate_title_of_fixed _ hstrip h0

/-! ### Projection equations (established once on variable arguments) -/

theorem mkVacancy_title (d : PyDict) (u : String) (sf st : ℚ) :
    (mkVacancy d u sf st).title = titleOf d := rfl

theorem mkVacancy_url (d : PyDict) (u : String) (sf st : ℚ) :
    (mkVacancy d u sf st).url = u := rfl

theorem mkVacancy_sf (d : PyDict) (u : String) (sf st : ℚ) :
    (mkVacancy d u sf st).salary_from = sf := rfl

theorem mkVacancy_st (d : PyDict) (u : String) (sf st : ℚ) :
    (mkVacancy d u sf st).salary_to = st := rfl

theorem mkVacancy_city (d : PyDict) (u : String) (sf st : ℚ) :
    (mkVacancy d u sf st).city = cityOf (addressVals d).1 := rfl

theorem mkVacancy_experience (d : PyDict) (u : String) (sf st : ℚ) :
    (mkVacancy d u sf st).experience = experienceOf (dgetD d "experience" .vnone) := rfl

theorem mkVacancy_employer_url (d : PyDict) (u : String) (sf st : ℚ) :
    (mkVacancy d u sf st).employer_url = (employerVals d).2 := rfl

theorem mkVacancy_employer_name (d : PyDict) (u : String) (sf st : ℚ) :
    (mkVacancy d u sf st).employer_name = employerNameOf (employerVals d).1 := rfl

theorem toDict_city_lookup (r : Vacancy) :
    (addressVals r.toDictEntries).1 = .vstr r.city := rfl

/-! ### Claim C6: round-trip through serialization -/

/-- C6 (amended): for every mapping from which a record `r` is
successfully constructed, reconstructing from `r`'s own serialized
mapping succeeds and yields a record with the same derived average salary
and the same city; the title is also preserved unless it is (up to case)
one of the reserved words `none`/`null`, in which case it collapses to
the title placeholder. -/
theorem claim6_roundtrip (m : PyVal) (r : Vacancy) (h : vacancyInit m = .ok r) :
    ∃ r2, vacancyInit r.toDict = .ok r2 ∧
      r2.averageSalary = r.averageSalary ∧ r2.city = r.city ∧
      (pyLower r.title ∉ (["none", "null"] : List String) → r2.title = r.title) := by
  obtain ⟨d, u, sf, st, hm, hu, hsf, hst, hr⟩ := vacancyInit_ok_elim m r h
  have hurl : validate_url (.vstr r.url) = .ok r.url := by
    rw [hr, mkVacancy_url]
    exact validate_url_stable _ u hu
  have hd1 : r.salary_from.den = 1 := by
    rw [hr, mkVacancy_sf]
    exact normalizeSalary_den _ _ hsf
  have hd2 : r.salary_to.den = 1 := by
    rw [hr, mkVacancy_st]
    exact normalizeSalary_den _ _ hst
  have h0 : r.title ≠ "" := by
    rw [hr, mkVacancy_title]
    exact titleOf_ne_empty d
  have hstrip : pyStrip r.title = r.title := by
    rw [hr, mkVacancy_title]
    exact titleOf_stripped d
  have hcity : r.city = cityOf (addressVals d).1 := by
    rw [hr, mkVacancy_city]
  refine ⟨_, toDict_reinit r hurl hd1 hd2, ?_, ?_, ?_⟩
  · exact averageSalary_congr _ _ (mkVacancy_sf _ _ _ _) (mkVacancy_st _ _ _ _)
  · rw [mkVacancy_city, toDict_city_lookup, hcity]
    exact cityOf_stable (addressVals d).1
  · intro hres
    rw [mkVacancy_title]
    exact titleOf_toDict r h0 hstrip hres

/-! ### Concrete records used by witnesses -/

/-- The record constructed from the empty mapping (and from any mapping
all of whose recognized fields are absent or defaulted). -/
def emptyRec : Vacancy :=
  { id := ""
    title := "Вакансия без названия"
    url := ""
    employer_name := "Не указано"
    employer_url := .vnone
    salary_from := 0
    salary_to := 0
    currency := "RUB"
    gross := true
    responsibilities := ""
    requirements := ""
    professional_roles := []
    experience := .vstr "Не указан"
    probation_period := none
    city := "Не указан"
    street := ""
    building := "" }

theorem emptyRec_init : vacancyInit (.vdict []) = .ok emptyRec := rfl

/-- `emptyRec` with a validated url, as constructed from
`{"url": " https://a "}`. -/
def urlRec : Vacancy := { emptyRec with url := "https://a" }

/-- `emptyRec` with a plain title, as constructed from `{"name": "Dev"}`. -/
def devRec : Vacancy := { emptyRec with title := "Dev" }

/-! ### Claim C2: the salary coercion is not total — `"inf"` overflows -/

/-- C2 (code bug): the coercion policy is meant to be total, but the
string `"inf"` passes `float()` and then `int(float("inf"))` raises
`OverflowError`, which `except (ValueError, TypeError)` does not catch,
so construction fails because of a salary field. -/
theorem claim2_inf_overflow :
    normalizeSalary (.vstr "inf") = .error .overflowError ∧
      vacancyInit (.vdict [("title", .vstr "Dev"), ("salary_from", .vstr "inf")])
        = .error .overflowError := ⟨rfl, rfl⟩

/-! ### Claim C9: the display scenario -/

/-- The live-API input of the display scenario. -/
def displayInput : PyVal :=
  .vdict [("name", .vstr "Python Dev"),
          ("alternate_url", .vstr "https://hh.ru/vacancy/1"),
          ("salary", .vdict [("from", .vint 100000), ("to", .vint 100000),
                             ("currency", .vstr "RUB"), ("gross", .vbool true)]),
          ("address", .vdict [("city", .vstr "Москва")])]

/-- C9: the scenario input constructs successfully and renders exactly
`"Python Dev | 100,000 RUB (gross) | Москва"`. -/
theorem claim9_display :
    (vacancyInit displayInput).map Vacancy.displayString
      = .ok "Python Dev | 100,000 RUB (gross) | Москва" := rfl

/-! ### Claims C3, C4, C5: counterexamples -/

/-- C3 counterexample: a negative flat salary is preserved, so the
constructed record's `salary_from` is negative, refuting the
non-negativity invariant. -/
theorem claim3_cex :
    (vacancyInit (.vdict [("salary_from", .vint (-1))])).map
      (fun r => decide (r.salary_from < 0)) = .ok true := rfl

/-- C4 counterexample: a flat string `experience` value is collapsed to
the placeholder instead of being kept. -/
theorem claim4_cex :
    (vacancyInit (.vdict [("experience", .vstr "3-5 лет")])).map
      (fun r => r.experience) = .ok (.vstr "Не указан") := rfl

/-- C5 counterexample: the nested `employer.alternate_url` of a live
payload is ignored (the source reads `employer.url`), so `employer_url`
comes out absent rather than the given link. -/
theorem claim5_cex :
    (vacancyInit (.vdict [("employer",
        .vdict [("alternate_url", .vstr "https://hh.ru/employer/1")])])).map
      (fun r => r.employer_url) = .ok .vnone := rfl

/-- C6 counterexample: the title `" none "` survives the first
construction as `"none"` but collapses to the placeholder on reload, so
the round-trip does not preserve the title. -/
theorem claim6_cex :
    (vacancyInit (.vdict [("name", .vstr " none ")])).bind
        (fun r => (vacancyInit r.toDict).map (fun r2 => (r.title, r2.title)))
      = .ok ("none", "Вакансия без названия") := rfl

/-! ### Claim C1: the URL contract of construction -/

theorem init_url (d : PyDict) (r : Vacancy) (h : vacancyInit (.vdict d) = .ok r) :
    validate_url (urlArg d) = .ok r.url := by
  obtain ⟨d', u, sf, st, hm, hu, hsf, hst, hr⟩ := vacancyInit_ok_elim _ r h
  injection hm with hdd
  subst hdd
  rw [hr, mkVacancy_url]
  exact hu

theorem init_url_error (d : PyDict) (e : PyErr)
    (h : validate_url (urlArg d) = .error e) : vacancyInit (.vdict d) = .error e := by
  simp [vacancyInit, h]

/-- C1 counterexample: a truthy non-string URL value (`{"url": 7}`) makes
construction fail with an attribute error at `url.strip()`, not with the
`InvalidURL` (`ValueError`) failure the claim promises for every
non-empty ill-formed value. -/
theorem claim1_cex :
    vacancyInit (.vdict [("url", .vint 7)]) = .error .attributeError := rfl

/-- C1 (amended): for the URL value resolved from keys `url` /
`alternate_url`, restricted to string (or falsy) values: a falsy or
blank value yields the empty url; a string whose trimmed form starts
with `http://` or `https://` passes through trimmed; any other non-blank
string fails construction with the `ValueError` carrying the trimmed
value (a truthy non-string instead fails with an attribute error, see
the counterexample). -/
theorem claim1_url_contract (d : PyDict) :
    ((urlField d).truthy = false →
      ∀ r, vacancyInit (.vdict d) = .ok r → r.url = "") ∧
    (∀ s, urlField d = .vstr s → pyStrip s = "" →
      ∀ r, vacancyInit (.vdict d) = .ok r → r.url = "") ∧
    (∀ s, urlField d = .vstr s →
      (listPre "http://".data (pyStrip s).data
        || listPre "https://".data (pyStrip s).data) = true →
      ∀ r, vacancyInit (.vdict d) = .ok r → r.url = pyStrip s) ∧
    (∀ s, urlField d = .vstr s → pyStrip s ≠ "" →
      (listPre "http://".data (pyStrip s).data
        || listPre "https://".data (pyStrip s).data) = false →
      vacancyInit (.vdict d) = .error (.valueError ("Некорректный URL: " ++ pyStrip s))) := by
  refine ⟨?_, ?_, ?_, ?_⟩
  · intro hf r h
    have hv : validate_url (urlArg d) = .ok "" := by
      unfold urlArg
      rw [if_neg (by simp [hf])]
      rfl
    have := init_url d r h
    rw [hv] at this
    injection this with h2
    exact h2.symm
  · intro s hs hstrip r h
    have hv : validate_url (urlArg d) = .ok "" := by
      unfold urlArg
      rw [hs]
      by_cases he : s = ""
      · subst he; rfl
      · rw [if_pos (by simp [PyVal.truthy, he])]
        simp [validate_url, hstrip]
    have := init_url d r h
    rw [hv] at this
    injection this with h2
    exact h2.symm
  · intro s hs hpre r h
    have hstrip_ne : pyStrip s ≠ "" := by
      intro he
      rw [he] at hpre
      exact absurd hpre (by decide)
    have hs_ne : s ≠ "" := by
      intro he
      apply hstrip_ne
      rw [he]
      rfl
    have hv : validate_url (urlArg d) = .ok (pyStrip s) := by
      unfold urlArg
      rw [hs, if_pos (by simp [PyVal.truthy, hs_ne])]
      simp [validate_url, hstrip_ne, hpre]
    have := init_url d r h
    rw [hv] at this
    injection this with h2
    exact h2.symm
  · intro s hs hstrip_ne hpre
    apply init_url_error
    unfold urlArg
    have hs_ne : s ≠ "" := by
      intro he
      apply hstrip_ne
      rw [he]
      rfl
    rw [hs, if_pos (by simp [PyVal.truthy, hs_ne])]
    simp [validate_url, hstrip_ne, hpre]

/-- C1 witness: the three reachable outcomes at concrete inputs — a
trimmed pass-through, an empty result for a blank value, and the
`ValueError` failure for an `ftp://` link. -/
theorem claim1_witness :
    urlRec.url = pyStrip " https://a " ∧
    emptyRec.url = "" ∧
    vacancyInit (.vdict [("alternate_url", .vstr "ftp://x")]) =
      .error (.valueError ("Некорректный URL: " ++ pyStrip "ftp://x")) := by
  refine ⟨?_, ?_, ?_⟩
  · exact (claim1_url_contract [("url", .vstr " https://a ")]).2.2.1 " https://a " rfl
      (by decide) urlRec rfl
  · exact (claim1_url_contract []).1 (by decide) emptyRec rfl
  · exact (claim1_url_contract [("alternate_url", .vstr "ftp://x")]).2.2.2 "ftp://x" rfl
      (by decide) (by decide)

/-! ### Claim C3: salary bounds are exact integral decimals -/

/-- C3 (amended): for every successfully constructed record the salary
bounds are present as exact integer-valued decimals, and an absent raw
value coerces to zero; negative numeric input is preserved, not clamped
(see the counterexample). -/
theorem claim3_salaries (d : PyDict) (r : Vacancy)
    (h : vacancyInit (.vdict d) = .ok r) :
    r.salary_from.den = 1 ∧ r.salary_to.den = 1 ∧
      ((salaryCurrencyGross d).1 = .vnone → r.salary_from = 0) ∧
      ((salaryCurrencyGross d).2.1 = .vnone → r.salary_to = 0) := by
  obtain ⟨d', u, sf, st, hm, hu, hsf, hst, hr⟩ := vacancyInit_ok_elim _ r h
  injection hm with hdd
  subst hdd
  refine ⟨?_, ?_, ?_, ?_⟩
  · rw [hr, mkVacancy_sf]
    exact normalizeSalary_den _ _ hsf
  · rw [hr, mkVacancy_st]
    exact normalizeSalary_den _ _ hst
  · intro hraw
    rw [hraw] at hsf
    injection hsf with h2
    rw [hr, mkVacancy_sf, ← h2]
  · intro hraw
    rw [hraw] at hst
    injection hst with h2
    rw [hr, mkVacancy_st, ← h2]

/-- C3 witness: on the empty mapping both bounds are the integral zero
decimal. -/
theorem claim3_witness :
    emptyRec.salary_from.den = 1 ∧ emptyRec.salary_from = 0 ∧ emptyRec.salary_to = 0 :=
  ⟨(claim3_salaries [] emptyRec rfl).1,
   (claim3_salaries [] emptyRec rfl).2.2.1 rfl,
   (claim3_salaries [] emptyRec rfl).2.2.2 rfl⟩

/-! ### Claim C4: experience derivation -/

/-- C4 (amended): the experience field comes from `experience.name` only
when the raw value is a mapping (with the placeholder as the default for
a mapping without `name`); every non-mapping raw value — absent, and also
every plain string, number, boolean or list — normalizes to the
placeholder. -/
theorem claim4_experience (d : PyDict) (r : Vacancy)
    (h : vacancyInit (.vdict d) = .ok r) :
    (∀ v, dgetD d "experience" .vnone = v → (∀ ed, v ≠ .vdict ed) →
      r.experience = .vstr "Не указан") ∧
    (∀ s, dgetD d "experience" .vnone = .vstr s → r.experience = .vstr "Не указан") ∧
    (dgetD d "experience" .vnone = .vnone → r.experience = .vstr "Не указан") ∧
    (∀ ed, dgetD d "experience" .vnone = .vdict ed →
      r.experience = dgetD ed "name" (.vstr "Не указан")) := by
  obtain ⟨d', u, sf, st, hm, hu, hsf, hst, hr⟩ := vacancyInit_ok_elim _ r h
  injection hm with hdd
  subst hdd
  have he : r.experience = experienceOf (dgetD d "experience" .vnone) := by
    rw [hr, mkVacancy_experience]
  refine ⟨?_, ?_, ?_, ?_⟩
  · intro v hv hnd
    rw [he, hv]
    cases v with
    | vnone => rfl
    | vbool b => rfl
    | vint n => rfl
    | vfloat f => rfl
    | vstr s => rfl
    | vlist xs => rfl
    | vdict ed => exact absurd rfl (hnd ed)
  · intro s hs
    rw [he, hs]
    rfl
  · intro hs
    rw [he, hs]
    rfl
  · intro ed hs
    rw [he, hs]
    rfl

/-- The record built from a live-shape experience mapping. -/
def expRec : Vacancy := { emptyRec with experience := .vstr "Более 6 лет" }

/-- C4 witness: a non-mapping experience value (an integer) comes out as
the placeholder, and a mapping contributes its `name`. -/
theorem claim4_witness :
    emptyRec.experience = .vstr "Не указан" ∧
    expRec.experience = .vstr "Более 6 лет" := by
  constructor
  · exact (claim4_experience [("experience", .vint 3)] emptyRec rfl).1 (.vint 3) rfl
      (fun ed => by simp)
  · exact (claim4_experience [("experience", .vdict [("name", .vstr "Более 6 лет")])]
      expRec rfl).2.2.2 _ rfl

/-! ### Claim C5: employer derivation -/

/-- C5 (amended): with a truthy `employer` mapping the employer url is
taken from the nested key `url` (not `alternate_url`), otherwise from the
flat `employer_url`; no placeholder normalization is applied to it, so a
missing value stays an explicit `None` while any string passes through;
the employer name normalizes `None` and the strings `none`/`null`/`not
specified` (case-insensitively) to the placeholder and keeps every other
string. -/
theorem claim5_employer (d : PyDict) (r : Vacancy)
    (h : vacancyInit (.vdict d) = .ok r) :
    (∀ ed, truthyDict? (dgetD d "employer" .vnone) = some ed →
      r.employer_url = dgetD ed "url" .vnone ∧
        r.employer_name = employerNameOf (dgetD ed "name" .vnone)) ∧
    (truthyDict? (dgetD d "employer" .vnone) = none →
      r.employer_url = dgetD d "employer_url" .vnone ∧
        r.employer_name = employerNameOf (dgetD d "employer_name" .vnone)) ∧
    (employerNameOf .vnone = "Не указано") ∧
    (∀ s, pyLower s ∈ (["none", "null", "not specified"] : List String) →
      employerNameOf (.vstr s) = "Не указано") ∧
    (∀ s, pyLower s ∉ (["none", "null", "not specified"] : List String) →
      employerNameOf (.vstr s) = s) := by
  obtain ⟨d', u, sf, st, hm, hu, hsf, hst, hr⟩ := vacancyInit_ok_elim _ r h
  injection hm with hdd
  subst hdd
  have hu2 : r.employer_url = (employerVals d).2 := by
    rw [hr, mkVacancy_employer_url]
  have hn2 : r.employer_name = employerNameOf (employerVals d).1 := by
    rw [hr, mkVacancy_employer_name]
  refine ⟨?_, ?_, rfl, ?_, ?_⟩
  · intro ed hed
    constructor
    · rw [hu2]
      unfold employerVals
      rw [hed]
    · rw [hn2]
      unfold employerVals
      rw [hed]
  · intro hed
    constructor
    · rw [hu2]
      unfold employerVals
      rw [hed]
    · rw [hn2]
      unfold employerVals
      rw [hed]
  · intro s hsmem
    simp only [employerNameOf]
    rw [if_pos (by simpa using hsmem)]
  · intro s hsmem
    simp only [employerNameOf]
    rw [if_neg (by simpa using hsmem)]

/-- C5 witness: an absent employer leaves an explicit `None` url and the
placeholder name; a case-insensitive placeholder-like name string
normalizes; an ordinary name is kept. -/
theorem claim5_witness :
    emptyRec.employer_url = .vnone ∧ emptyRec.employer_name = "Не указано" ∧
    employerNameOf (.vstr "NONE") = "Не указано" ∧
    employerNameOf (.vstr "TechCorp") = "TechCorp" := by
  refine ⟨?_, ?_, ?_, ?_⟩
  · exact ((claim5_employer [] emptyRec rfl).2.1 rfl).1
  · exact ((claim5_employer [] emptyRec rfl).2.1 rfl).2
  · exact (claim5_employer [] emptyRec rfl).2.2.2.1 "NONE" (by decide)
  · exact (claim5_employer [] emptyRec rfl).2.2.2.2 "TechCorp" (by decide)

/-- C6 witness: the round-trip guarantees evaluated on the record built
from `{"name": "Dev"}`. -/
theorem claim6_witness :
    ∃ r2, vacancyInit devRec.toDict = .ok r2 ∧
      r2.averageSalary = devRec.averageSalary ∧ r2.city = devRec.city ∧
      (pyLower devRec.title ∉ (["none", "null"] : List String) → r2.title = devRec.title) :=
  claim6_roundtrip (.vdict [("name", .vstr "Dev")]) devRec rfl

/-! ### Claim C7: ordering by average salary only -/

/-- C7: every comparison between two records is decided solely by the
derived average salary (equality and the four order relations), the
induced `<=` is reflexive, transitive and total — a total preorder — and
comparing a record with a non-record value returns the `NotImplemented`
sentinel for all five operators instead of crashing. -/
theorem claim7_ordering :
    (∀ a b : Vacancy, a.eqPy (.vac b) = .res true ↔ a.averageSalary = b.averageSalary) ∧
    (∀ a b : Vacancy, a.ltPy (.vac b) = .res true ↔ a.averageSalary < b.averageSalary) ∧
    (∀ a b : Vacancy, a.lePy (.vac b) = .res true ↔ a.averageSalary ≤ b.averageSalary) ∧
    (∀ a b : Vacancy, a.gtPy (.vac b) = .res true ↔ b.averageSalary < a.averageSalary) ∧
    (∀ a b : Vacancy, a.gePy (.vac b) = .res true ↔ b.averageSalary ≤ a.averageSalary) ∧
    (∀ a : Vacancy, a.lePy (.vac a) = .res true) ∧
    (∀ a b c : Vacancy, a.lePy (.vac b) = .res true → b.lePy (.vac c) = .res true →
      a.lePy (.vac c) = .res true) ∧
    (∀ a b : Vacancy, a.lePy (.vac b) = .res true ∨ b.lePy (.vac a) = .res true) ∧
    (∀ (a : Vacancy) (p : PyVal),
      a.eqPy (.other p) = .notImplemented ∧ a.ltPy (.other p) = .notImplemented ∧
      a.lePy (.other p) = .notImplemented ∧ a.gtPy (.other p) = .notImplemented ∧
      a.gePy (.other p) = .notImplemented) := by
  refine ⟨?_, ?_, ?_, ?_, ?_, ?_, ?_, ?_, ?_⟩
  · intro a b; simp [Vacancy.eqPy]
  · intro a b; simp [Vacancy.ltPy]
  · intro a b; simp [Vacancy.lePy]
  · intro a b; simp [Vacancy.gtPy]
  · intro a b; simp [Vacancy.gePy]
  · intro a; simp [Vacancy.lePy]
  · intro a b c h1 h2
    simp only [Vacancy.lePy, CmpRes.res.injEq, decide_eq_true_eq] at h1 h2 ⊢
    exact le_trans h1 h2
  · intro a b
    rcases le_total a.averageSalary b.averageSalary with h | h
    · left; simp [Vacancy.lePy, h]
    · right; simp [Vacancy.lePy, h]
  · intro a p
    exact ⟨rfl, rfl, rfl, rfl, rfl⟩

/-- C7 witness: transitivity discharged at concrete records and the
`NotImplemented` sentinel at a concrete non-record operand. -/
theorem claim7_witness :
    emptyRec.lePy (.vac emptyRec) = .res true ∧
    emptyRec.eqPy (.other (.vstr "not a vacancy")) = .notImplemented := by
  constructor
  · exact claim7_ordering.2.2.2.2.2.2.1 emptyRec emptyRec emptyRec (by decide) (by decide)
  · exact (claim7_ordering.2.2.2.2.2.2.2.2 emptyRec (.vstr "not a vacancy")).1

/-! ### Store lemmas for the save operation -/

/-- Well-formed parsed store content: every record is a dict whose truthy
id (if any) is hashable. -/
def StoreOk (store : List PyVal) : Prop :=
  ∀ it ∈ store, (∃ dd, it = PyVal.vdict dd) ∧ hashableB (itemIdOf it) = true

theorem pyEqB_vstr_self (s : String) : pyEqB (.vstr s) (.vstr s) = true := by
  show (s == s) = true
  simp

theorem pyEqB_vstr_left (s : String) (y : PyVal) :
    pyEqB (.vstr s) y = true ↔ y = .vstr s := by
  cases y with
  | vnone => show false = true ↔ _; simp
  | vbool b => show false = true ↔ _; simp
  | vint n => show false = true ↔ _; simp
  | vfloat f =>
    cases f with
    | finite q => show false = true ↔ _; simp
    | inf => show false = true ↔ _; simp
    | negInf => show false = true ↔ _; simp
    | nan => show false = true ↔ _; simp
  | vstr t =>
    show (s == t) = true ↔ PyVal.vstr t = PyVal.vstr s
    constructor
    · intro h
      rw [eq_of_beq h]
    · intro h
      injection h with h2
      rw [h2]
      simp
  | vlist xs => show false = true ↔ _; simp
  | vdict ps => show false = true ↔ _; simp

theorem countWithId_append (a b : List PyVal) (x : PyVal) :
    countWithId (a ++ b) x = countWithId a x + countWithId b x := by
  unfold countWithId
  rw [List.filter_append, List.length_append]

theorem countWithId_eq_zero (store : List PyVal) (x : PyVal)
    (h : countWithId store x = 0) :
    ∀ it ∈ store, pyEqB (itemIdOf it) x = false := by
  intro it hit
  unfold countWithId at h
  rw [List.length_eq_zero] at h
  have h2 := List.filter_eq_nil_iff.mp h it hit
  simpa using h2

/-- Evaluating the id-set comprehension on a well-formed store: it
succeeds, contains only truthy ids of stored records, and contains every
truthy stored id. -/
theorem buildIds_ok (store : List PyVal) (hstore : StoreOk store) :
    ∃ ids, buildIds store = .ok ids ∧
      (∀ y ∈ ids, ∃ it ∈ store, itemIdOf it = y ∧ y.truthy = true) ∧
      (∀ it ∈ store, (itemIdOf it).truthy = true → itemIdOf it ∈ ids) := by
  induction store with
  | nil => exact ⟨[], rfl, by simp, by simp⟩
  | cons it rest ih =>
    obtain ⟨⟨dd, hdd⟩, hhash⟩ := hstore it (by simp)
    have hrest : StoreOk rest := fun x hx => hstore x (by simp [hx])
    obtain ⟨ids, hok, hsound, hcomp⟩ := ih hrest
    subst hdd
    by_cases ht : (dgetD dd "id" .vnone).truthy = true
    · refine ⟨dgetD dd "id" .vnone :: ids, ?_, ?_, ?_⟩
      · show buildIds (.vdict dd :: rest) = _
        simp only [buildIds]
        have hhash' : hashableB (dgetD dd "id" .vnone) = true := hhash
        rw [if_pos ht, if_pos hhash', hok]
        rfl
      · intro y hy
        rcases List.mem_cons.mp hy with rfl | hy
        · exact ⟨.vdict dd, by simp, rfl, ht⟩
        · obtain ⟨it2, hit2, hid2, htr2⟩ := hsound y hy
          exact ⟨it2, by simp [hit2], hid2, htr2⟩
      · intro x hx htr
        rcases List.mem_cons.mp hx with rfl | hx
        · exact List.mem_cons_self _ _
        · exact List.mem_cons_of_mem _ (hcomp x hx htr)
    · refine ⟨ids, ?_, ?_, ?_⟩
      · show buildIds (.vdict dd :: rest) = _
        simp only [buildIds]
        rw [if_neg ht]
        exact hok
      · intro y hy
        obtain ⟨it2, hit2, hid2, htr2⟩ := hsound y hy
        exact ⟨it2, by simp [hit2], hid2, htr2⟩
      · intro x hx htr
        rcases List.mem_cons.mp hx with rfl | hx
        · exact absurd htr ht
        · exact hcomp x hx htr

/-! ### Claim C8: deduplication idempotence of the store -/

/-- C8 counterexample: a record whose id is the empty string is appended
on both saves (the id-set comprehension keeps only truthy ids), so two
records with that id end up stored, refuting idempotence as universally
stated. -/
theorem claim8_cex :
    (saveData [] [.vdict [("id", .vstr ""), ("title", .vstr "X")]]).bind
        (fun s1 => saveData s1 [.vdict [("id", .vstr ""), ("title", .vstr "X")]])
      = .ok [.vdict [("id", .vstr ""), ("title", .vstr "X")],
             .vdict [("id", .vstr ""), ("title", .vstr "X")]] ∧
    countWithId [.vdict [("id", .vstr ""), ("title", .vstr "X")],
                 .vdict [("id", .vstr ""), ("title", .vstr "X")]] (.vstr "") = 2 :=
  ⟨rfl, rfl⟩

/-- C8 (amended): saving a record with a non-empty string id twice into a
well-formed store not yet containing that id leaves exactly one stored
record with that id. -/
theorem claim8_dedup (store : List PyVal) (d : PyDict) (s : String)
    (hstore : StoreOk store) (hid : dgetD d "id" .vnone = .vstr s) (hs : s ≠ "")
    (hnew : countWithId store (.vstr s) = 0) :
    ∃ s1 s2, saveData store [.vdict d] = .ok s1 ∧ saveData s1 [.vdict d] = .ok s2 ∧
      countWithId s2 (.vstr s) = 1 := by
  obtain ⟨ids, hok, hsound, hcomp⟩ := buildIds_ok store hstore
  have hidOf : itemIdOf (.vdict d) = .vstr s := hid
  have hmem1 : pyMemB (.vstr s) ids = false := by
    rw [Bool.eq_false_iff]
    intro hany
    obtain ⟨y, hy, hEq⟩ := List.any_eq_true.mp hany
    have hy2 : y = .vstr s := (pyEqB_vstr_left s y).mp hEq
    subst hy2
    obtain ⟨it, hit, hitid, _⟩ := hsound _ hy
    have hzero := countWithId_eq_zero store (.vstr s) hnew it hit
    rw [hitid, pyEqB_vstr_self] at hzero
    cases hzero
  have hsel1 : selectNew ids [.vdict d] = .ok [.vdict d] := by
    simp only [selectNew]
    have hidOf' : hashableB (itemIdOf (.vdict d)) = true := by rw [hidOf]; rfl
    rw [if_pos hidOf']
    rw [hidOf, if_neg (by simp [hmem1])]
    rfl
  have hsave1 : saveData store [.vdict d] = .ok (store ++ [.vdict d]) := by
    unfold saveData
    rw [if_pos (by simp), hok]
    show Except.map (fun uniq => store ++ uniq) (selectNew ids [.vdict d])
        = Except.ok (store ++ [.vdict d])
    rw [hsel1]
    rfl
  have hstore2 : StoreOk (store ++ [.vdict d]) := by
    intro x hx
    rcases List.mem_append.mp hx with hx | hx
    · exact hstore x hx
    · simp only [List.mem_singleton] at hx
      subst hx
      exact ⟨⟨d, rfl⟩, by rw [hidOf]; rfl⟩
  obtain ⟨ids2, hok2, hsound2, hcomp2⟩ := buildIds_ok _ hstore2
  have hmemid : PyVal.vstr s ∈ ids2 := by
    have h2 := hcomp2 (.vdict d) (by simp)
      (by rw [hidOf]; simp [PyVal.truthy, hs])
    rwa [hidOf] at h2
  have hmem2 : pyMemB (.vstr s) ids2 = true :=
    List.any_eq_true.mpr ⟨.vstr s, hmemid, pyEqB_vstr_self s⟩
  have hsel2 : selectNew ids2 [.vdict d] = .ok [] := by
    simp only [selectNew]
    have hidOf' : hashableB (itemIdOf (.vdict d)) = true := by rw [hidOf]; rfl
    rw [if_pos hidOf']
    rw [hidOf, if_pos hmem2]
  have hsave2 : saveData (store ++ [.vdict d]) [.vdict d] = .ok (store ++ [.vdict d]) := by
    unfold saveData
    rw [if_pos (by simp), hok2]
    show Except.map (fun uniq => store ++ [PyVal.vdict d] ++ uniq) (selectNew ids2 [.vdict d])
        = Except.ok (store ++ [.vdict d])
    rw [hsel2]
    show Except.ok (store ++ [PyVal.vdict d] ++ []) = Except.ok (store ++ [.vdict d])
    rw [List.append_nil]
  refine ⟨_, _, hsave1, hsave2, ?_⟩
  rw [countWithId_append, hnew]
  simp [countWithId, hidOf, pyEqB_vstr_self]

/-- C8 witness: the amended statement evaluated for id `"1"` on the empty
store. -/
theorem claim8_witness :
    ∃ s1 s2, saveData [] [.vdict [("id", .vstr "1")]] = .ok s1 ∧
      saveData s1 [.vdict [("id", .vstr "1")]] = .ok s2 ∧
      countWithId s2 (.vstr "1") = 1 :=
  claim8_dedup [] [("id", .vstr "1")] "1" (by intro it hit; simp at hit) rfl
    (by decide) rfl

/-! ### Claim C10: batch semantics of save -/

/-- C10: `save_data` deduplicates only against the records already stored
before the call and only by truthy ids: an incoming item whose non-empty
string id is not among the pre-existing ids is appended — so two items
with the same id inside one batch are both stored — and an item with the
empty-string id is always appended, even when the store already holds
records with the empty id. -/
theorem claim10_save_semantics :
    (∀ (store : List PyVal) (d : PyDict) (s : String), StoreOk store →
      dgetD d "id" .vnone = .vstr s → s ≠ "" → countWithId store (.vstr s) = 0 →
      saveData store [.vdict d, .vdict d] = .ok (store ++ [.vdict d, .vdict d])) ∧
    (∀ (store : List PyVal) (d : PyDict), StoreOk store →
      dgetD d "id" .vnone = .vstr "" →
      saveData store [.vdict d] = .ok (store ++ [.vdict d])) := by
  constructor
  · intro store d s hstore hid hs hnew
    obtain ⟨ids, hok, hsound, hcomp⟩ := buildIds_ok store hstore
    have hidOf : itemIdOf (.vdict d) = .vstr s := hid
    have hmem1 : pyMemB (.vstr s) ids = false := by
      rw [Bool.eq_false_iff]
      intro hany
      obtain ⟨y, hy, hEq⟩ := List.any_eq_true.mp hany
      have hy2 : y = .vstr s := (pyEqB_vstr_left s y).mp hEq
      subst hy2
      obtain ⟨it, hit, hitid, _⟩ := hsound _ hy
      have hzero := countWithId_eq_zero store (.vstr s) hnew it hit
      rw [hitid, pyEqB_vstr_self] at hzero
      cases hzero
    have hidOf' : hashableB (itemIdOf (.vdict d)) = true := by rw [hidOf]; rfl
    have hsel : selectNew ids [.vdict d, .vdict d] = .ok [.vdict d, .vdict d] := by
      simp [selectNew, hashableB, hidOf, hmem1, Except.map]
    unfold saveData
    rw [if_pos (by simp), hok]
    show Except.map (fun uniq => store ++ uniq) (selectNew ids [.vdict d, .vdict d])
        = Except.ok (store ++ [.vdict d, .vdict d])
    rw [hsel]
    rfl
  · intro store d hstore hid
    obtain ⟨ids, hok, hsound, hcomp⟩ := buildIds_ok store hstore
    have hidOf : itemIdOf (.vdict d) = .vstr "" := hid
    have hmem1 : pyMemB (.vstr "") ids = false := by
      rw [Bool.eq_false_iff]
      intro hany
      obtain ⟨y, hy, hEq⟩ := List.any_eq_true.mp hany
      have hy2 : y = .vstr "" := (pyEqB_vstr_left "" y).mp hEq
      subst hy2
      obtain ⟨it, hit, hitid, htr⟩ := hsound _ hy
      cases htr
    have hidOf' : hashableB (itemIdOf (.vdict d)) = true := by rw [hidOf]; rfl
    have hsel : selectNew ids [.vdict d] = .ok [.vdict d] := by
      simp only [selectNew]
      rw [if_pos hidOf', hidOf, if_neg (by simp [hmem1])]
      rfl
    unfold saveData
    rw [if_pos (by simp), hok]
    show Except.map (fun uniq => store ++ uniq) (selectNew ids [.vdict d])
        = Except.ok (store ++ [.vdict d])
    rw [hsel]
    rfl

/-- C10 witness: a duplicated id inside one batch is stored twice on an
empty store, and an empty-id item is appended to a store that already
holds an empty-id record. -/
theorem claim10_witness :
    saveData [] [.vdict [("id", .vstr "7")], .vdict [("id", .vstr "7")]]
      = .ok [.vdict [("id", .vstr "7")], .vdict [("id", .vstr "7")]] ∧
    saveData [.vdict [("id", .vstr "")]] [.vdict [("id", .vstr "")]]
      = .ok [.vdict [("id", .vstr "")], .vdict [("id", .vstr "")]] := by
  constructor
  · have h := claim10_save_semantics.1 [] [("id", .vstr "7")] "7"
      (by intro it hit; simp at hit) rfl (by decide) rfl
    simpa using h
  · have h := claim10_save_semantics.2 [.vdict [("id", .vstr "")]] [("id", .vstr "")]
      (by intro it hit
          simp only [List.mem_singleton] at hit
          subst hit
          exact ⟨⟨_, rfl⟩, rfl⟩) rfl
    simpa using h
